import Mathlib

/-
Verification of the `Repo.Sync` package-mirroring pipeline (repo.go, package
yum) against its natural-language specification.  The Go source is shallowly
embedded below: pure helpers (`filepath.Base`, `filepath.Join`,
`hex.DecodeString`) are translated directly, and effectful collaborators
(cache, checksum validation, the download client, GPG checking, the index
writer) are abstracted as an explicit environment record `SyncEnv`, so each
phase of `Sync` becomes a pure, executable Lean function of the environment.
-/

set_option linter.unusedVariables false

namespace GoYum

/- Model of Go path/filepath.Base (unix rules): an empty path yields ".";
trailing separators are stripped; the final path component is returned; a path
consisting only of separators yields "/". -/
def filepathBase (path : String) : String :=
  if path = "" then "."
  else
    let l := path.toList.reverse.dropWhile (fun ch => ch = '/')
    if l = [] then "/"
    else String.mk ((l.takeWhile (fun ch => ch ≠ '/')).reverse)

/- Split a character list on a separator character (used to model the
component view taken by Go path/filepath.Clean). -/
def splitOnChar (c : Char) : List Char → List (List Char)
  | [] => [[]]
  | x :: xs =>
    if x = c then [] :: splitOnChar c xs
    else
      match splitOnChar c xs with
      | [] => [[x]]
      | y :: ys => (x :: y) :: ys

/- Component-stack formulation of Go path/filepath.Clean: empty and "."
components are dropped; ".." pops a previous component when one is available
(and is dropped at the root of a rooted path); other components are pushed.
The accumulator holds the kept components in reverse order. -/
def cleanStack (rooted : Bool) : List (List Char) → List (List Char) → List (List Char)
  | acc, [] => acc
  | acc, c :: rest =>
    if c = [] ∨ c = ['.'] then cleanStack rooted acc rest
    else if c = ['.', '.'] then
      match acc with
      | [] => if rooted then cleanStack rooted [] rest else cleanStack rooted [c] rest
      | top :: acc2 =>
        if top = ['.', '.'] then cleanStack rooted (c :: acc) rest
        else cleanStack rooted acc2 rest
    else cleanStack rooted (c :: acc) rest

/- Model of Go path/filepath.Clean (unix rules). -/
def goClean (path : String) : String :=
  if path = "" then "."
  else
    let cs := path.toList
    let rooted : Bool := decide (cs.head? = some '/')
    let comps := (cleanStack rooted [] (splitOnChar '/' cs)).reverse
    let body := List.intercalate ['/'] comps
    if rooted then String.mk ('/' :: body)
    else if body = [] then "." else String.mk body

/- Model of Go path/filepath.Join restricted to the two-element calls made by
`Repo.Sync`: empty elements are skipped and the "/"-joined rest is Cleaned. -/
def filepathJoin (a b : String) : String :=
  if a = "" ∧ b = "" then ""
  else if a = "" then goClean b
  else if b = "" then goClean a
  else goClean (a ++ "/" ++ b)

/- Model of one hex digit of Go encoding/hex. -/
def hexDigitVal (ch : Char) : Option Nat :=
  if '0' ≤ ch ∧ ch ≤ '9' then some (ch.toNat - '0'.toNat)
  else if 'a' ≤ ch ∧ ch ≤ 'f' then some (ch.toNat - 'a'.toNat + 10)
  else if 'A' ≤ ch ∧ ch ≤ 'F' then some (ch.toNat - 'A'.toNat + 10)
  else none

/- Model of Go encoding/hex.DecodeString: fails on a non-hex digit or an odd
number of digits, otherwise yields the decoded bytes. -/
def hexDecodeChars : List Char → Option (List Nat)
  | [] => some []
  | [_] => none
  | hi :: lo :: rest =>
    match hexDigitVal hi, hexDigitVal lo, hexDecodeChars rest with
    | some h, some l, some tail => some ((16 * h + l) :: tail)
    | _, _, _ => none

def hexDecode (s : String) : Option (List Nat) :=
  hexDecodeChars s.toList

/- One entry of the package directory listing, as produced by
ioutil.ReadDir: file name and size in bytes (Go int64). -/
structure FileInfo where
  name : String
  size : Int
deriving DecidableEq, Repr

/- One catalog entry loaded from the primary db.  `checksum` models the
(string, error) result of p.Checksum(): `none` means the read failed.
`label` models the %v rendering of the package used in log lines. -/
structure PackageEntry where
  locationHref : String
  packageSize : Int
  checksum : Option String
  checksumType : String
  label : String
deriving DecidableEq, Repr

/- The fields of the Repo struct that `Sync` reads. -/
structure Repo where
  id : String
  baseURL : String
  gpgCheck : Bool
  gpgKey : String
deriving Repr

/- The reconciliation verdict for one catalog entry, as named by the design
document; derived below from the branch taken by the search loop of `Sync`. -/
inductive Disposition
  | Valid | Corrupt | TooLarge | Incomplete | Missing
deriving DecidableEq, Repr

/- Result of ValidateFileChecksum: `mismatch` models ErrChecksumMismatch,
`other` models any other validation error (unreadable file, unsupported
algorithm). -/
inductive CheckErr
  | mismatch
  | other (msg : String)
deriving DecidableEq, Repr

/- One grab.Request as configured by `Sync`: URL, "[ i / total ]" label,
destination filename, expected size, and the decoded expected checksum. -/
structure Request where
  url : String
  label : String
  filename : String
  size : Int
  checksumType : String
  checksumBytes : List Nat
deriving DecidableEq, Repr

/- One element of the response stream returned by the download client:
the originating request, the error (if any), and the destination filename. -/
structure Response where
  request : Request
  error : Option String
  filename : String
deriving DecidableEq, Repr

/- The Errorf log lines emitted by the request-building, download and GPG
phases, keyed by the package or request label they identify. -/
inductive LogEvent
  | requestError (label : String)
  | checksumReadError (label : String)
  | checksumDecodeError (label : String)
  | downloadError (label : String)
  | openError (label : String)
  | gpgError (label : String)
  | removeError (label : String)
deriving DecidableEq, Repr

/- Result of os.MkdirAll: an error message plus whether os.IsExist holds of
it (`Sync` ignores already-exists errors). -/
structure MkdirErr where
  msg : String
  isExist : Bool
deriving DecidableEq, Repr

/- The effectful collaborators of `Sync`, abstracted as a record so that each
phase becomes a pure function.  Fields follow Go's error convention: an
`Option String` result is `none` on success. -/
structure SyncEnv where
  /-- Modelled from the spec: OpenKeyRing (declared outside src/) loads the
  trusted keyring from the given key path; `none` means success. -/
  openKeyRing : String → Option String
  /-- Result of c.CacheLocal(cachedir): caches repo metadata locally. -/
  cacheLocal : Option String
  /-- Result of repocache.PrimaryDB(). -/
  primaryDB : Option String
  /-- Result of os.MkdirAll(packagedir, 0750). -/
  mkdirErr : Option MkdirErr
  /-- Result of ioutil.ReadDir(packagedir): the fresh local file listing. -/
  readDir : Except String (List FileInfo)
  /-- Result of primarydb.Packages(): the parsed catalog entries. -/
  packagesResult : Except String (List PackageEntry)
  /-- Modelled from the spec: FilterPackages (declared outside src/) is the
  Filter Policy, "purely a predicate, no side effects", applied entrywise. -/
  filterPred : PackageEntry → Bool
  /-- Modelled from the spec: ValidateFileChecksum (declared outside src/)
  computes the checksum of the file at the given path under the given
  algorithm and compares it with the given expected value; `none` = match. -/
  validateChecksum : String → String → String → Option CheckErr
  /-- Whether grab.NewRequest fails for the given URL. -/
  newRequestErr : String → Bool
  /-- Modelled from the spec: the error, if any, of the single FetchOutcome
  that the download client yields for a given request. -/
  downloadErr : Request → Option String
  /-- Whether os.Open fails for the given downloaded file. -/
  openErr : String → Bool
  /-- Result of rpm.GPGCheck against the loaded keyring for a given file. -/
  gpgCheckErr : String → Option String
  /-- Whether os.Remove fails for the given file. -/
  removeErr : String → Bool
  /-- Modelled from the spec: the error, if any, of createrepo(...) opening
  the index writer. -/
  createrepoErr : Option String
  /-- Result of filepath.Glob(packagedir/*.rpm) at rebuild time: the fresh
  enumeration of on-disk artifacts, independent of the download phase. -/
  globRpms : Except String (List String)
  /-- Result of rpm.OpenPackageFile for one on-disk artifact: its parsed
  metadata (abstracted as a string) or a parse error. -/
  parseRpm : String → Except String String

/-- Modelled from the spec: urljoin (declared outside src/) joins the
repository base URL with the entry's relative location. -/
def urljoin (base href : String) : String :=
  base ++ "/" ++ href

/- package_filename := filepath.Base(p.LocationHref()). -/
def packageFilename (p : PackageEntry) : String :=
  filepathBase p.locationHref

/- package_path := filepath.Join(packagedir, filepath.Base(p.LocationHref())). -/
def packagePath (packagedir : String) (p : PackageEntry) : String :=
  filepathJoin packagedir (filepathBase p.locationHref)

/- The inner search loop of `Sync` over the directory listing, returning the
final value of `found`: a name match with equal size runs checksum
validation and breaks either way; a name match with larger size breaks with
`found` still false; a smaller (incomplete) file lets the scan continue. -/
def findValidLocal (env : SyncEnv) (packagedir : String) (p : PackageEntry) :
    List FileInfo → Bool
  | [] => false
  | fi :: rest =>
    if fi.name = packageFilename p then
      if fi.size = p.packageSize then
        match p.checksum with
        | none => false
        | some sum =>
          match env.validateChecksum (packagePath packagedir p) sum p.checksumType with
          | some CheckErr.mismatch => false
          | some (CheckErr.other _) => false
          | none => true
      else if fi.size > p.packageSize then false
      else findValidLocal env packagedir p rest
    else findValidLocal env packagedir p rest

/- The same search loop, abstracted to the Disposition named by the branch it
ends in: no name match = Missing; equal size with failing checksum read or
validation = Corrupt, with success = Valid; larger file = TooLarge; a smaller
file with no later match = Incomplete. -/
def dispositionOf (env : SyncEnv) (packagedir : String) (p : PackageEntry) :
    List FileInfo → Disposition
  | [] => Disposition.Missing
  | fi :: rest =>
    if fi.name = packageFilename p then
      if fi.size = p.packageSize then
        match p.checksum with
        | none => Disposition.Corrupt
        | some sum =>
          match env.validateChecksum (packagePath packagedir p) sum p.checksumType with
          | some CheckErr.mismatch => Disposition.Corrupt
          | some (CheckErr.other _) => Disposition.Corrupt
          | none => Disposition.Valid
      else if fi.size > p.packageSize then Disposition.TooLarge
      else
        match dispositionOf env packagedir p rest with
        | Disposition.Missing => Disposition.Incomplete
        | d => d
    else dispositionOf env packagedir p rest

/- The `missing` list built by the reconciliation loop: every package whose
search ended with `found == false`, in catalog order. -/
def missingPackages (env : SyncEnv) (packagedir : String) (files : List FileInfo)
    (packages : List PackageEntry) : List PackageEntry :=
  packages.filter (fun p => ! findValidLocal env packagedir p files)

/- uint64(p.PackageSize()) conversion used by the totalsize accumulator. -/
def toUInt64Nat (i : Int) : Nat :=
  (i % (2 : Int) ^ 64).toNat

/- The running totalsize accumulator (Go uint64 addition, modulo 2^64). -/
def totalSize (missing : List PackageEntry) : Nat :=
  missing.foldl (fun acc p => (acc + toUInt64Nat p.packageSize) % 2 ^ 64) 0

/- The "[ i / total ] label" request label. -/
def mkLabel (i total : Nat) (p : PackageEntry) : String :=
  "[ " ++ toString i ++ " / " ++ toString total ++ " ] " ++ p.label

/- Request construction for one missing package (loop body of the
request-building phase): grab.NewRequest failure, checksum read failure and
hex-decode failure each drop the job with one log line; otherwise exactly one
request carrying url, label, destination filename, size and decoded checksum
is produced. -/
def buildOne (env : SyncEnv) (c : Repo) (packagedir : String) (i total : Nat)
    (p : PackageEntry) : Option Request × List LogEvent :=
  if env.newRequestErr (urljoin c.baseURL p.locationHref) then
    (none, [LogEvent.requestError p.label])
  else
    match p.checksum with
    | none => (none, [LogEvent.checksumReadError p.label])
    | some sum =>
      match hexDecode sum with
      | none => (none, [LogEvent.checksumDecodeError p.label])
      | some b =>
        (some ⟨urljoin c.baseURL p.locationHref, mkLabel (i + 1) total p,
               filepathJoin packagedir (filepathBase p.locationHref),
               p.packageSize, p.checksumType, b⟩, [])

/- The request-building loop over the missing list, with its running index. -/
def buildRequests (env : SyncEnv) (c : Repo) (packagedir : String) (total : Nat) :
    Nat → List PackageEntry → List Request × List LogEvent
  | _, [] => ([], [])
  | i, p :: rest =>
    let one := buildOne env c packagedir i total p
    let more := buildRequests env c packagedir total (i + 1) rest
    (one.1.toList ++ more.1, one.2 ++ more.2)

/-- Modelled from the spec: the Download Client `download(jobs, concurrency)`
(declared outside src/) yields exactly one FetchOutcome per dispatched job;
completion order is unconstrained, so outcomes are modelled in job order,
each carrying its request, its error (if any) and its destination filename. -/
def download (env : SyncEnv) (reqs : List Request) : List Response :=
  reqs.map (fun r => ⟨r, env.downloadErr r, r.filename⟩)

/- Handling of one finished download (loop body of the post-download phase):
a failed outcome is logged; a successful one, when GPG checking is enabled,
is opened (open failure logged) and GPG-checked; on check failure the
artifact is deleted, a deletion failure being logged but not escalated.
Returns the filenames deleted and the log lines emitted by this iteration. -/
def gpgStep (env : SyncEnv) (gpgCheck : Bool) (resp : Response) :
    List String × List LogEvent :=
  match resp.error with
  | some _ => ([], [LogEvent.downloadError resp.request.label])
  | none =>
    if gpgCheck then
      if env.openErr resp.filename then ([], [LogEvent.openError resp.request.label])
      else
        match env.gpgCheckErr resp.filename with
        | some _ =>
          if env.removeErr resp.filename then
            ([], [LogEvent.gpgError resp.request.label,
                  LogEvent.removeError resp.request.label])
          else ([resp.filename], [LogEvent.gpgError resp.request.label])
        | none => ([], [])
    else ([], [])

/- The post-download loop over the whole response stream. -/
def gpgPhase (env : SyncEnv) (gpgCheck : Bool) :
    List Response → List String × List LogEvent
  | [] => ([], [])
  | resp :: rest =>
    let one := gpgStep env gpgCheck resp
    let more := gpgPhase env gpgCheck rest
    (one.1 ++ more.1, one.2 ++ more.2)

/- The index-rebuild loop: each enumerated artifact is opened and parsed;
the first parse failure is fatal (PanicOn, modelled from the spec as aborting
the run) and is surfaced as the error of the whole rebuild. -/
def parseAll (env : SyncEnv) : List String → Except String (List String)
  | [] => Except.ok []
  | f :: rest =>
    match env.parseRpm f with
    | Except.error e => Except.error e
    | Except.ok meta =>
      match parseAll env rest with
      | Except.error e => Except.error e
      | Except.ok metas => Except.ok (meta :: metas)

/- The index-rebuild phase: open the index writer, take a fresh enumeration
of packagedir/*.rpm, and parse every enumerated file; any failure aborts. -/
def indexRebuild (env : SyncEnv) (packagedir : String) : Except String (List String) :=
  match env.createrepoErr with
  | some e => Except.error e
  | none =>
    match env.globRpms with
    | Except.error e => Except.error e
    | Except.ok files => parseAll env files

/- Everything `Sync` computed on a run that reached the end: the directory
listing, the filtered catalog, the missing (toFetch) list, the requests and
pre-dispatch log, the response stream, the deletions and log of the GPG
phase, and the metadata written to the rebuilt index. -/
structure SyncReport where
  files : List FileInfo
  packages : List PackageEntry
  missing : List PackageEntry
  requests : List Request
  prelog : List LogEvent
  responses : List Response
  deleted : List String
  gpglog : List LogEvent
  index : List String
deriving DecidableEq, Repr

/- The result of a run of `Sync`: an error returned before the download
phase, an abort (PanicOn) during index rebuild, or a completed run. -/
inductive SyncResult
  | earlyError (msg : String)
  | panicked (msg : String)
  | success (report : SyncReport)
deriving DecidableEq, Repr

/- The externally visible mutations `Sync` performs, in order. -/
inductive Effect
  | cacheMetadata
  | mkdirPackageDir
  | downloadFile (name : String)
  | deleteFile (name : String)
  | writeIndex
deriving DecidableEq, Repr

/- The MkdirAll error check of `Sync`: `err != nil && !os.IsExist(err)`. -/
def mkdirFailed (env : SyncEnv) : Bool :=
  match env.mkdirErr with
  | some e => ! e.isExist
  | none => false

/- The top-level `Repo.Sync`, phase by phase in source order: keyring load
(only when GPGCheck is set), metadata caching, primary-db open, package
directory creation, directory listing, catalog load, filter, reconciliation,
request building, download, GPG verification, index rebuild.  Returns the
result together with the list of mutations performed up to that point. -/
def sync (env : SyncEnv) (c : Repo) (packagedir : String) :
    SyncResult × List Effect :=
  match (if c.gpgCheck then env.openKeyRing c.gpgKey else none) with
  | some e => (SyncResult.earlyError e, [])
  | none =>
    match env.cacheLocal with
    | some e =>
      (SyncResult.earlyError ("Failed to cache metadata for repo " ++ c.id ++ ": " ++ e),
       [Effect.cacheMetadata])
    | none =>
      match env.primaryDB with
      | some e => (SyncResult.earlyError e, [Effect.cacheMetadata])
      | none =>
        if mkdirFailed env then
          (SyncResult.earlyError ("Error creating local package path " ++ packagedir),
           [Effect.cacheMetadata, Effect.mkdirPackageDir])
        else
          match env.readDir with
          | Except.error _ =>
            (SyncResult.earlyError "Error reading packages",
             [Effect.cacheMetadata, Effect.mkdirPackageDir])
          | Except.ok files =>
            match env.packagesResult with
            | Except.error e =>
              (SyncResult.earlyError ("Error reading packages from primary_db: " ++ e),
               [Effect.cacheMetadata, Effect.mkdirPackageDir])
            | Except.ok packages0 =>
              let packages := packages0.filter env.filterPred
              let missing := missingPackages env packagedir files packages
              let built := buildRequests env c packagedir missing.length 0 missing
              let responses := download env built.1
              let post := gpgPhase env c.gpgCheck responses
              let effects :=
                [Effect.cacheMetadata, Effect.mkdirPackageDir]
                ++ built.1.map (fun r => Effect.downloadFile r.filename)
                ++ post.1.map Effect.deleteFile
              match indexRebuild env packagedir with
              | Except.error e => (SyncResult.panicked e, effects)
              | Except.ok metas =>
                (SyncResult.success
                  ⟨files, packages, missing, built.1, built.2, responses,
                   post.1, post.2, metas⟩,
                 effects ++ [Effect.writeIndex])

/- The verdict of the equal-size branch of the search loop (the branch taken
once a directory entry with the package's filename and the declared size is
found): a failed checksum read, a checksum mismatch and any other validation
error all end in Corrupt; a successful validation ends in Valid. -/
def checksumVerdict (env : SyncEnv) (packagedir : String) (p : PackageEntry) :
    Disposition :=
  match p.checksum with
  | none => Disposition.Corrupt
  | some sum =>
    match env.validateChecksum (packagePath packagedir p) sum p.checksumType with
    | some CheckErr.mismatch => Disposition.Corrupt
    | some (CheckErr.other _) => Disposition.Corrupt
    | none => Disposition.Valid

/- The report and effect list produced by a run of `Sync` that got past the
catalog-loading steps, written out for reuse in the run lemmas below. -/
def reportOf (env : SyncEnv) (c : Repo) (packagedir : String)
    (files : List FileInfo) (packages0 : List PackageEntry)
    (metas : List String) : SyncReport :=
  let packages := packages0.filter env.filterPred
  let missing := missingPackages env packagedir files packages
  let built := buildRequests env c packagedir missing.length 0 missing
  let responses := download env built.1
  let post := gpgPhase env c.gpgCheck responses
  ⟨files, packages, missing, built.1, built.2, responses, post.1, post.2, metas⟩

def effectsOf (env : SyncEnv) (c : Repo) (packagedir : String)
    (files : List FileInfo) (packages0 : List PackageEntry) : List Effect :=
  let packages := packages0.filter env.filterPred
  let missing := missingPackages env packagedir files packages
  let built := buildRequests env c packagedir missing.length 0 missing
  let responses := download env built.1
  let post := gpgPhase env c.gpgCheck responses
  [Effect.cacheMetadata, Effect.mkdirPackageDir]
  ++ built.1.map (fun r => Effect.downloadFile r.filename)
  ++ post.1.map Effect.deleteFile

/- Concrete fixtures used to exercise the embedding on closed inputs.
`baseEnv` is a run in which every collaborator succeeds; the variants below
flip one collaborator at a time. -/
def baseEnv : SyncEnv :=
  ⟨fun _ => none, none, none, none, Except.ok [], Except.ok [], fun _ => true,
   fun _ _ _ => none, fun _ => false, fun _ => none, fun _ => false,
   fun _ => none, fun _ => false, none, Except.ok [], fun _ => Except.ok ""⟩

def repoX : Repo :=
  ⟨"repo1", "http://upstream", false, ""⟩

def pX : PackageEntry :=
  ⟨"Packages/x.rpm", 100, some "aa", "sha256", "x-1.0"⟩

def filesX : List FileInfo :=
  [⟨"x.rpm", 150⟩]

def pC3 : PackageEntry :=
  ⟨"Packages/y.rpm", 200, none, "sha256", "y-1"⟩

def pV : PackageEntry :=
  ⟨"Packages/v.rpm", 10, some "0b", "sha256", "v-2"⟩

def filesV : List FileInfo :=
  [⟨"v.rpm", 10⟩]

def mismatchEnv : SyncEnv :=
  { baseEnv with validateChecksum := fun _ _ _ => some CheckErr.mismatch }

def pM : PackageEntry :=
  ⟨"Packages/m.rpm", 20, some "ff", "sha256", "m-1"⟩

def filesM : List FileInfo :=
  [⟨"m.rpm", 20⟩]

def reqX5 : Request :=
  ⟨"http://upstream/Packages/x.rpm", "[ 1 / 1 ] x-1.0", "pkgs/x.rpm", 100,
   "sha256", [170]⟩

def respX5 : Response :=
  ⟨reqX5, none, "pkgs/x.rpm"⟩

def badSigEnv : SyncEnv :=
  { baseEnv with gpgCheckErr := fun _ => some "bad signature" }

def freshEnv : SyncEnv :=
  { baseEnv with
    globRpms := Except.ok ["pkgs/a.rpm", "pkgs/b.rpm"],
    parseRpm := fun f => Except.ok ("meta:" ++ f) }

def corruptEnv : SyncEnv :=
  { baseEnv with
    globRpms := Except.ok ["pkgs/bad.rpm"],
    parseRpm := fun _ => Except.error "corrupt rpm" }

def pZ : PackageEntry :=
  ⟨"Packages/z.rpm", 50, some "ff", "sha256", "z-1"⟩

def netFailEnv : SyncEnv :=
  { baseEnv with
    packagesResult := Except.ok [pZ],
    downloadErr := fun _ => some "network error" }

def p9a : PackageEntry :=
  ⟨"os/x.rpm", 100, some "aa", "sha256", "x-1.0"⟩

def p9b : PackageEntry :=
  ⟨"updates/x.rpm", 100, some "aa", "sha256", "x-1.0"⟩

def keyFailEnv : SyncEnv :=
  { baseEnv with openKeyRing := fun _ => some "no such key" }

def repoGPG : Repo :=
  ⟨"repo10", "http://upstream", true, "keys/RPM-GPG-KEY"⟩

/- The search loop returns true exactly when it ended in the Valid branch. -/
theorem findValidLocal_iff_valid (env : SyncEnv) (packagedir : String)
    (p : PackageEntry) (files : List FileInfo) :
    findValidLocal env packagedir p files = true ↔
      dispositionOf env packagedir p files = Disposition.Valid := by
  induction files with
  | nil => simp [findValidLocal, dispositionOf]
  | cons fi rest ih =>
    simp only [findValidLocal, dispositionOf]
    by_cases h1 : fi.name = packageFilename p
    · simp only [h1, if_true]
      by_cases h2 : fi.size = p.packageSize
      · simp only [h2, if_true]
        cases hc : p.checksum with
        | none => simp
        | some sum =>
          cases hv : env.validateChecksum (packagePath packagedir p) sum p.checksumType with
          | none => simp [hv]
          | some ce => cases ce <;> simp [hv]
      · simp only [h2, if_false]
        by_cases h3 : fi.size > p.packageSize
        · simp [h3]
        · simp only [h3, if_false]
          rw [ih]
          cases hd : dispositionOf env packagedir p rest <;> simp
    · simp only [h1, if_false]
      exact ih

/- If no directory entry carries the package's filename, the search falls
through to Missing. -/
theorem dispositionOf_eq_missing (env : SyncEnv) (packagedir : String)
    (p : PackageEntry) (files : List FileInfo)
    (h : ∀ fi ∈ files, fi.name ≠ packageFilename p) :
    dispositionOf env packagedir p files = Disposition.Missing := by
  induction files with
  | nil => simp [dispositionOf]
  | cons fi rest ih =>
    have hfi : fi.name ≠ packageFilename p := h fi (List.mem_cons_self fi rest)
    simp only [dispositionOf, hfi, if_false]
    exact ih fun g hg => h g (List.mem_cons_of_mem fi hg)

/- Membership in the missing (toFetch) list. -/
theorem mem_missingPackages (env : SyncEnv) (packagedir : String)
    (files : List FileInfo) (packages : List PackageEntry) (p : PackageEntry) :
    p ∈ missingPackages env packagedir files packages ↔
      p ∈ packages ∧ findValidLocal env packagedir p files = false := by
  simp [missingPackages, List.mem_filter]

/- Request construction for one package yields exactly one of: a request, or
a single pre-dispatch failure log line. -/
theorem buildOne_shape (env : SyncEnv) (c : Repo) (packagedir : String)
    (i total : Nat) (p : PackageEntry) :
    (buildOne env c packagedir i total p).1.toList.length
      + (buildOne env c packagedir i total p).2.length = 1 := by
  simp only [buildOne]
  by_cases h1 : env.newRequestErr (urljoin c.baseURL p.locationHref)
  · simp [h1]
  · simp only [h1, if_false]
    cases hc : p.checksum with
    | none => simp
    | some sum =>
      cases hd : hexDecode sum with
      | none => simp [hd]
      | some b => simp [hd]

/- Dispatched requests plus pre-dispatch failure logs account for every
missing package exactly once. -/
theorem buildRequests_length (env : SyncEnv) (c : Repo) (packagedir : String)
    (total : Nat) (i : Nat) (l : List PackageEntry) :
    (buildRequests env c packagedir total i l).1.length
      + (buildRequests env c packagedir total i l).2.length = l.length := by
  induction l generalizing i with
  | nil => simp [buildRequests]
  | cons p rest ih =>
    have hone := buildOne_shape env c packagedir i total p
    have hrest := ih (i + 1)
    simp only [buildRequests, List.length_append, List.length_cons]
    omega

/- The download phase yields exactly one response per dispatched request. -/
theorem download_length (env : SyncEnv) (reqs : List Request) :
    (download env reqs).length = reqs.length := by
  simp [download]

/- Every deletion performed for one response is performed by the phase. -/
theorem gpgPhase_deleted_mem (env : SyncEnv) (g : Bool) (resp : Response)
    (responses : List Response) (hmem : resp ∈ responses) (x : String)
    (hx : x ∈ (gpgStep env g resp).1) : x ∈ (gpgPhase env g responses).1 := by
  induction responses with
  | nil => cases hmem
  | cons r rest ih =>
    simp only [gpgPhase, List.mem_append]
    rcases List.mem_cons.mp hmem with h | h
    · exact Or.inl (h ▸ hx)
    · exact Or.inr (ih h)

/- Every log line emitted for one response is emitted by the phase. -/
theorem gpgPhase_log_mem (env : SyncEnv) (g : Bool) (resp : Response)
    (responses : List Response) (hmem : resp ∈ responses) (ev : LogEvent)
    (hx : ev ∈ (gpgStep env g resp).2) : ev ∈ (gpgPhase env g responses).2 := by
  induction responses with
  | nil => cases hmem
  | cons r rest ih =>
    simp only [gpgPhase, List.mem_append]
    rcases List.mem_cons.mp hmem with h | h
    · exact Or.inl (h ▸ hx)
    · exact Or.inr (ih h)

/- With GPG checking disabled no file is ever deleted. -/
theorem gpgPhase_disabled_deletes_nothing (env : SyncEnv)
    (responses : List Response) : (gpgPhase env false responses).1 = [] := by
  induction responses with
  | nil => rfl
  | cons r rest ih =>
    simp only [gpgPhase, ih, List.append_nil]
    cases hr : r.error with
    | some e => simp [gpgStep, hr]
    | none => simp [gpgStep, hr]

/- A run whose collaborators all succeed up to the catalog, and whose index
rebuild succeeds, completes with the phase-by-phase report. -/
theorem sync_success_run (env : SyncEnv) (c : Repo) (packagedir : String)
    (hk : (if c.gpgCheck then env.openKeyRing c.gpgKey else none) = none)
    (hc : env.cacheLocal = none) (hp : env.primaryDB = none)
    (hm : mkdirFailed env = false)
    (files : List FileInfo) (hr : env.readDir = Except.ok files)
    (packages0 : List PackageEntry) (hpk : env.packagesResult = Except.ok packages0)
    (metas : List String) (hx : indexRebuild env packagedir = Except.ok metas) :
    sync env c packagedir =
      (SyncResult.success (reportOf env c packagedir files packages0 metas),
       effectsOf env c packagedir files packages0 ++ [Effect.writeIndex]) := by
  simp only [sync, hk, hc, hp, hm, hr, hpk, hx, if_false, Bool.false_eq_true,
    reportOf, effectsOf]

/- A run that reaches the index rebuild and hits a rebuild error aborts with
PanicOn, carrying the effects already performed. -/
theorem sync_panic_run (env : SyncEnv) (c : Repo) (packagedir : String)
    (hk : (if c.gpgCheck then env.openKeyRing c.gpgKey else none) = none)
    (hc : env.cacheLocal = none) (hp : env.primaryDB = none)
    (hm : mkdirFailed env = false)
    (files : List FileInfo) (hr : env.readDir = Except.ok files)
    (packages0 : List PackageEntry) (hpk : env.packagesResult = Except.ok packages0)
    (e : String) (hx : indexRebuild env packagedir = Except.error e) :
    sync env c packagedir =
      (SyncResult.panicked e, effectsOf env c packagedir files packages0) := by
  simp only [sync, hk, hc, hp, hm, hr, hpk, hx, if_false, Bool.false_eq_true,
    effectsOf]

/- When the directory listing has pairwise-distinct names and contains an
entry matching the package's filename with exactly the declared size, the
search ends in the equal-size branch and returns its checksum verdict. -/
theorem dispositionOf_eq_checksumVerdict (env : SyncEnv) (packagedir : String)
    (p : PackageEntry) (files : List FileInfo)
    (hnd : (files.map FileInfo.name).Nodup) (fi : FileInfo) (hfi : fi ∈ files)
    (hname : fi.name = packageFilename p) (hsize : fi.size = p.packageSize) :
    dispositionOf env packagedir p files = checksumVerdict env packagedir p := by
  induction files with
  | nil => cases hfi
  | cons g rest ih =>
    rw [List.map_cons, List.nodup_cons] at hnd
    rcases List.mem_cons.mp hfi with rfl | hfi2
    · simp only [dispositionOf, hname, if_true, hsize, checksumVerdict]
    · have hgname : g.name ≠ packageFilename p := by
        intro hg
        have hmem : fi.name ∈ rest.map FileInfo.name := List.mem_map_of_mem _ hfi2
        rw [hname, ← hg] at hmem
        exact hnd.1 hmem
      simp only [dispositionOf, hgname, if_false]
      exact ih hnd.2 hfi2

/- A search that ends Valid exhibits a directory entry with the package's
filename and the declared size, together with a readable declared checksum
that validates. -/
theorem dispositionOf_valid_exists (env : SyncEnv) (packagedir : String)
    (p : PackageEntry) (files : List FileInfo)
    (h : dispositionOf env packagedir p files = Disposition.Valid) :
    (∃ fi ∈ files, fi.name = packageFilename p ∧ fi.size = p.packageSize) ∧
      ∃ sum, p.checksum = some sum ∧
        env.validateChecksum (packagePath packagedir p) sum p.checksumType = none := by
  induction files with
  | nil => simp [dispositionOf] at h
  | cons fi rest ih =>
    simp only [dispositionOf] at h
    by_cases h1 : fi.name = packageFilename p
    · rw [if_pos h1] at h
      by_cases h2 : fi.size = p.packageSize
      · rw [if_pos h2] at h
        cases hc : p.checksum with
        | none => simp [hc] at h
        | some sum =>
          simp only [hc] at h
          cases hv : env.validateChecksum (packagePath packagedir p) sum p.checksumType with
          | none => exact ⟨⟨fi, List.mem_cons_self _ _, h1, h2⟩, sum, rfl, hv⟩
          | some ce => cases ce <;> simp [hv] at h
      · rw [if_neg h2] at h
        by_cases h3 : fi.size > p.packageSize
        · rw [if_pos h3] at h; cases h
        · rw [if_neg h3] at h
          have hrest : dispositionOf env packagedir p rest = Disposition.Valid := by
            cases hd : dispositionOf env packagedir p rest <;> simp [hd] at h
            rfl
          obtain ⟨⟨g, hg, hga, hgb⟩, sum, hsum, hval⟩ := ih hrest
          exact ⟨⟨g, List.mem_cons_of_mem _ hg, hga, hgb⟩, sum, hsum, hval⟩
    · rw [if_neg h1] at h
      obtain ⟨⟨g, hg, hga, hgb⟩, sum, hsum, hval⟩ := ih h
      exact ⟨⟨g, List.mem_cons_of_mem _ hg, hga, hgb⟩, sum, hsum, hval⟩

/-- C1 counterexample: a concrete run in which the local file (150 bytes) is
strictly larger than the declared size (100): the disposition is TooLarge,
yet the entry lands in the toFetch list and one FetchJob is built for it,
contradicting the claim that TooLarge entries are excluded from toFetch and
never re-downloaded. -/
theorem c1_counterexample :
    dispositionOf baseEnv "pkgs" pX filesX = Disposition.TooLarge ∧
    pX ∈ missingPackages baseEnv "pkgs" filesX [pX] ∧
    (buildRequests baseEnv repoX "pkgs" 1 0
        (missingPackages baseEnv "pkgs" filesX [pX])).1.length = 1 := by
  decide

/-- C1 (amended): an entry whose matching local file is strictly larger than
the declared size gets disposition TooLarge, is excluded from toKeep (the
search reports it not found) and the reconciliation phase deletes nothing;
but the entry IS put into the toFetch list, and whenever its URL parses and
its declared checksum decodes, a FetchJob aimed at the same destination path
IS created, so the oversized file is re-downloaded rather than skipped. -/
theorem c1_toolarge_is_refetched (env : SyncEnv) (packagedir : String)
    (files : List FileInfo) (p : PackageEntry)
    (h : dispositionOf env packagedir p files = Disposition.TooLarge) :
    findValidLocal env packagedir p files = false ∧
    (∀ packages, p ∈ packages → p ∈ missingPackages env packagedir files packages) ∧
    (∀ c : Repo, env.newRequestErr (urljoin c.baseURL p.locationHref) = false →
      ∀ sum, p.checksum = some sum → ∀ b, hexDecode sum = some b →
      ∀ i total, ∃ r, (buildOne env c packagedir i total p).1 = some r ∧
        r.filename = packagePath packagedir p) := by
  have hnv : findValidLocal env packagedir p files = false := by
    cases hfv : findValidLocal env packagedir p files
    · rfl
    · exfalso
      have hvv := (findValidLocal_iff_valid env packagedir p files).mp hfv
      rw [hvv] at h
      cases h
  refine ⟨hnv, ?_, ?_⟩
  · intro packages hp
    exact (mem_missingPackages env packagedir files packages p).mpr ⟨hp, hnv⟩
  · intro c hreq sum hsum b hb i total
    refine ⟨⟨urljoin c.baseURL p.locationHref, mkLabel (i + 1) total p,
             filepathJoin packagedir (filepathBase p.locationHref),
             p.packageSize, p.checksumType, b⟩, ?_, rfl⟩
    simp [buildOne, hreq, hsum, hb]

/-- C1 witness: the amended theorem applied to the concrete TooLarge run. -/
theorem c1_witness :
    dispositionOf baseEnv "pkgs" pX filesX = Disposition.TooLarge ∧
    pX ∈ missingPackages baseEnv "pkgs" filesX [pX] := by
  refine ⟨by decide, ?_⟩
  exact (c1_toolarge_is_refetched baseEnv "pkgs" filesX pX (by decide)).2.1 [pX]
    (by decide)

/-- C2: over a directory listing with pairwise-distinct names, an entry's
disposition is Valid iff the listing holds a file with the entry's filename
whose size equals the declared size AND whose checksum validates under the
declared algorithm (so size equality alone is never sufficient), and a Valid
entry never enters the toFetch list, so no FetchJob is created for it. -/
theorem c2_valid_iff (env : SyncEnv) (packagedir : String)
    (files : List FileInfo) (p : PackageEntry)
    (hnd : (files.map FileInfo.name).Nodup) :
    (dispositionOf env packagedir p files = Disposition.Valid ↔
      ((∃ fi ∈ files, fi.name = packageFilename p ∧ fi.size = p.packageSize) ∧
       ∃ sum, p.checksum = some sum ∧
         env.validateChecksum (packagePath packagedir p) sum p.checksumType = none)) ∧
    (dispositionOf env packagedir p files = Disposition.Valid →
      ∀ packages, p ∉ missingPackages env packagedir files packages) := by
  constructor
  · constructor
    · exact dispositionOf_valid_exists env packagedir p files
    · rintro ⟨⟨fi, hfi, hname, hsize⟩, sum, hsum, hval⟩
      rw [dispositionOf_eq_checksumVerdict env packagedir p files hnd fi hfi hname hsize]
      simp [checksumVerdict, hsum, hval]
  · intro hv packages hmem
    rw [mem_missingPackages] at hmem
    have hfv : findValidLocal env packagedir p files = true :=
      (findValidLocal_iff_valid env packagedir p files).mpr hv
    rw [hmem.2] at hfv
    cases hfv

/-- C2 witness: a local file with the declared name, size and a validating
checksum is Valid and is not scheduled for download. -/
theorem c2_witness :
    (filesV.map FileInfo.name).Nodup ∧
    dispositionOf baseEnv "pkgs" pV filesV = Disposition.Valid ∧
    pV ∉ missingPackages baseEnv "pkgs" filesV [pV] := by
  have h := c2_valid_iff baseEnv "pkgs" filesV pV (by decide)
  have hvalid : dispositionOf baseEnv "pkgs" pV filesV = Disposition.Valid :=
    h.1.mpr ⟨⟨⟨"v.rpm", 10⟩, by decide, by decide, by decide⟩, "0b", rfl, rfl⟩
  exact ⟨by decide, hvalid, h.2 hvalid [pV]⟩

/-- C3 counterexample: a concrete run with one missing entry whose declared
checksum cannot be read: the entry is in toFetch (count 1) and is logged as
a pre-dispatch failure, but the download phase yields zero FetchOutcomes, so
the outcome count does not equal the toFetch count. -/
theorem c3_counterexample :
    missingPackages baseEnv "pkgs" [] [pC3] = [pC3] ∧
    (buildRequests baseEnv repoX "pkgs" 1 0 [pC3]).2 =
      [LogEvent.checksumReadError "y-1"] ∧
    (download baseEnv (buildRequests baseEnv repoX "pkgs" 1 0 [pC3]).1).length = 0 := by
  decide

/-- C3 (amended): every toFetch entry either yields exactly one FetchOutcome
or is reported (logged) as a pre-dispatch failure, and the number of
FetchOutcomes equals the toFetch count minus the number of pre-dispatch
failures — not, as originally claimed, the full toFetch count. -/
theorem c3_outcome_accounting (env : SyncEnv) (c : Repo) (packagedir : String)
    (total i : Nat) (missing : List PackageEntry) :
    (download env (buildRequests env c packagedir total i missing).1).length
        + (buildRequests env c packagedir total i missing).2.length
      = missing.length ∧
    (download env (buildRequests env c packagedir total i missing).1).length
      = (buildRequests env c packagedir total i missing).1.length := by
  rw [download_length]
  exact ⟨buildRequests_length env c packagedir total i missing, rfl⟩

/-- C4: when the local file matches the entry's filename with exactly the
declared size but checksum validation fails — whether the validation itself
errors (unreadable file, unsupported algorithm) or the computed checksum
mismatches — the disposition is Corrupt and the entry joins the toFetch
list; and whenever its URL parses and its declared checksum decodes, request
construction yields exactly one FetchJob for the entry, aimed at the entry's
destination path. -/
theorem c4_corrupt_refetch (env : SyncEnv) (c : Repo) (packagedir : String)
    (files : List FileInfo) (p : PackageEntry)
    (hnd : (files.map FileInfo.name).Nodup) (fi : FileInfo) (hfi : fi ∈ files)
    (hname : fi.name = packageFilename p) (hsize : fi.size = p.packageSize)
    (sum : String) (hsum : p.checksum = some sum) (ce : CheckErr)
    (hval : env.validateChecksum (packagePath packagedir p) sum p.checksumType
      = some ce) :
    dispositionOf env packagedir p files = Disposition.Corrupt ∧
    (∀ packages, p ∈ packages → p ∈ missingPackages env packagedir files packages) ∧
    (env.newRequestErr (urljoin c.baseURL p.locationHref) = false →
      ∀ b, hexDecode sum = some b → ∀ i total,
        buildOne env c packagedir i total p =
          (some ⟨urljoin c.baseURL p.locationHref, mkLabel (i + 1) total p,
                 packagePath packagedir p, p.packageSize, p.checksumType, b⟩,
           [])) := by
  have hd : dispositionOf env packagedir p files = Disposition.Corrupt := by
    rw [dispositionOf_eq_checksumVerdict env packagedir p files hnd fi hfi hname hsize]
    cases ce <;> simp [checksumVerdict, hsum, hval]
  refine ⟨hd, ?_, ?_⟩
  · intro packages hp
    refine (mem_missingPackages env packagedir files packages p).mpr ⟨hp, ?_⟩
    cases hfv : findValidLocal env packagedir p files
    · rfl
    · exfalso
      have hvv := (findValidLocal_iff_valid env packagedir p files).mp hfv
      rw [hvv] at hd
      cases hd
  · intro hreq b hb i total
    simp [buildOne, hreq, hsum, hb, packagePath]

/-- C4 witness: a size-equal local file whose checksum mismatches is Corrupt,
is scheduled for refetch, and request construction yields exactly one
FetchJob for it. -/
theorem c4_witness :
    dispositionOf mismatchEnv "pkgs" pM filesM = Disposition.Corrupt ∧
    pM ∈ missingPackages mismatchEnv "pkgs" filesM [pM] ∧
    buildOne mismatchEnv repoX "pkgs" 0 1 pM =
      (some ⟨urljoin repoX.baseURL pM.locationHref, mkLabel 1 1 pM,
             packagePath "pkgs" pM, pM.packageSize, pM.checksumType, [255]⟩,
       []) := by
  have h := c4_corrupt_refetch mismatchEnv repoX "pkgs" filesM pM (by decide)
    ⟨"m.rpm", 20⟩ (by decide) (by decide) (by decide) "ff" rfl
    CheckErr.mismatch rfl
  exact ⟨h.1, h.2.1 [pM] (by decide), h.2.2 rfl [255] (by decide) 0 1⟩

/- A request produced by request construction is always aimed at the
package's destination path under the package directory. -/
theorem buildOne_filename (env : SyncEnv) (c : Repo) (packagedir : String)
    (i total : Nat) (p : PackageEntry) (r : Request)
    (hr : (buildOne env c packagedir i total p).1 = some r) :
    r.filename = packagePath packagedir p := by
  by_cases h1 : env.newRequestErr (urljoin c.baseURL p.locationHref)
  · have hb : buildOne env c packagedir i total p =
        (none, [LogEvent.requestError p.label]) := by simp [buildOne, h1]
    rw [hb] at hr
    exact Option.noConfusion hr
  · cases hc : p.checksum with
    | none =>
      have hb : buildOne env c packagedir i total p =
          (none, [LogEvent.checksumReadError p.label]) := by simp [buildOne, h1, hc]
      rw [hb] at hr
      exact Option.noConfusion hr
    | some sum =>
      cases hd : hexDecode sum with
      | none =>
        have hb : buildOne env c packagedir i total p =
            (none, [LogEvent.checksumDecodeError p.label]) := by
          simp [buildOne, h1, hc, hd]
        rw [hb] at hr
        exact Option.noConfusion hr
      | some b =>
        have hb : buildOne env c packagedir i total p =
            (some ⟨urljoin c.baseURL p.locationHref, mkLabel (i + 1) total p,
                   packagePath packagedir p, p.packageSize, p.checksumType, b⟩,
             []) := by
          simp [buildOne, h1, hc, hd, packagePath]
        rw [hb] at hr
        rw [← Option.some.inj hr]

/-- C5: for a successfully downloaded artifact, when signature checking is
enabled and the GPG check against the keyring fails, the artifact is deleted
(its filename is in the phase's deleted set afterward) and the failure is
logged; a failed deletion is logged without escalating; and when signature
checking is disabled the phase deletes nothing at all, whatever the
signature state. -/
theorem c5_signature_policy (env : SyncEnv) (responses : List Response)
    (resp : Response) (hmem : resp ∈ responses) (hok : resp.error = none)
    (hopen : env.openErr resp.filename = false) (e : String)
    (hgpg : env.gpgCheckErr resp.filename = some e) :
    (env.removeErr resp.filename = false →
      resp.filename ∈ (gpgPhase env true responses).1 ∧
      LogEvent.gpgError resp.request.label ∈ (gpgPhase env true responses).2) ∧
    (env.removeErr resp.filename = true →
      LogEvent.gpgError resp.request.label ∈ (gpgPhase env true responses).2 ∧
      LogEvent.removeError resp.request.label ∈ (gpgPhase env true responses).2) ∧
    (gpgPhase env false responses).1 = [] := by
  refine ⟨?_, ?_, gpgPhase_disabled_deletes_nothing env responses⟩
  · intro hrem
    have hstep : gpgStep env true resp =
        ([resp.filename], [LogEvent.gpgError resp.request.label]) := by
      simp [gpgStep, hok, hopen, hgpg, hrem]
    constructor
    · exact gpgPhase_deleted_mem env true resp responses hmem _
        (by rw [hstep]; exact List.mem_singleton_self _)
    · exact gpgPhase_log_mem env true resp responses hmem _
        (by rw [hstep]; exact List.mem_singleton_self _)
  · intro hrem
    have hstep : gpgStep env true resp =
        ([], [LogEvent.gpgError resp.request.label,
              LogEvent.removeError resp.request.label]) := by
      simp [gpgStep, hok, hopen, hgpg, hrem]
    constructor
    · exact gpgPhase_log_mem env true resp responses hmem _ (by rw [hstep]; simp)
    · exact gpgPhase_log_mem env true resp responses hmem _ (by rw [hstep]; simp)

/-- C5 witness: a concrete successfully downloaded artifact failing the GPG
check is deleted and logged; with checking disabled nothing is deleted. -/
theorem c5_witness :
    respX5.error = none ∧
    respX5.filename ∈ (gpgPhase badSigEnv true [respX5]).1 ∧
    LogEvent.gpgError respX5.request.label ∈ (gpgPhase badSigEnv true [respX5]).2 ∧
    (gpgPhase badSigEnv false [respX5]).1 = [] := by
  have h := c5_signature_policy badSigEnv [respX5] respX5 (by decide) rfl rfl
    "bad signature" rfl
  exact ⟨rfl, (h.1 rfl).1, (h.1 rfl).2, h.2.2⟩

/- Parsing during index rebuild depends only on the parser. -/
theorem parseAll_congr (env env2 : SyncEnv) (h : env2.parseRpm = env.parseRpm) :
    ∀ l, parseAll env2 l = parseAll env l := by
  intro l
  induction l with
  | nil => rfl
  | cons f rest ih => simp only [parseAll, h, ih]

/- When every enumerated file parses, the rebuild loop succeeds and returns
one metadata record per file, in order. -/
theorem parseAll_ok (env : SyncEnv) :
    ∀ l, (∀ f ∈ l, ∃ m, env.parseRpm f = Except.ok m) →
      ∃ metas, parseAll env l = Except.ok metas ∧
        List.Forall₂ (fun f m => env.parseRpm f = Except.ok m) l metas := by
  intro l
  induction l with
  | nil => exact fun _ => ⟨[], rfl, List.Forall₂.nil⟩
  | cons f rest ih =>
    intro h
    obtain ⟨m, hm⟩ := h f (List.mem_cons_self _ _)
    obtain ⟨metas, hp, hf⟩ := ih fun g hg => h g (List.mem_cons_of_mem _ hg)
    exact ⟨m :: metas, by simp [parseAll, hm, hp], List.Forall₂.cons hm hf⟩

/- If any enumerated file fails to parse, the rebuild loop fails. -/
theorem parseAll_error (env : SyncEnv) :
    ∀ l (f : String), f ∈ l → ∀ e, env.parseRpm f = Except.error e →
      ∃ e2, parseAll env l = Except.error e2 := by
  intro l
  induction l with
  | nil => intro f hf; cases hf
  | cons g rest ih =>
    intro f hf e he
    cases hg : env.parseRpm g with
    | error e2 => exact ⟨e2, by simp [parseAll, hg]⟩
    | ok m =>
      rcases List.mem_cons.mp hf with rfl | hf2
      · rw [hg] at he
        cases he
      · obtain ⟨e2, hp⟩ := ih f hf2 e he
        exact ⟨e2, by simp [parseAll, hg, hp]⟩

/- A relation holding pointwise between two lists yields, for each member of
the first, a related member of the second. -/
theorem forall2_mem_right {α β : Type} {R : α → β → Prop} :
    ∀ {l1 : List α} {l2 : List β}, List.Forall₂ R l1 l2 →
      ∀ a ∈ l1, ∃ b ∈ l2, R a b := by
  intro l1 l2 h
  induction h with
  | nil => intro a ha; cases ha
  | cons hr hrest ih =>
    intro a ha
    rcases List.mem_cons.mp ha with rfl | ha2
    · exact ⟨_, List.mem_cons_self _ _, hr⟩
    · obtain ⟨b, hb, hrb⟩ := ih a ha2
      exact ⟨b, List.mem_cons_of_mem _ hb, hrb⟩

/-- C6: the rebuilt index is computed from the fresh filesystem enumeration
alone: when the writer opens and every enumerated file parses, the rebuild
succeeds with exactly one metadata record per enumerated file, in order (so
any file present in the enumeration — including one added out-of-band after
the download phase — appears in the index), and every environment agreeing
on the writer, the enumeration and the parser, however its download phase
behaved, rebuilds the identical index. -/
theorem c6_index_is_fresh_listing (env : SyncEnv) (packagedir : String)
    (hcr : env.createrepoErr = none) (files : List String)
    (hg : env.globRpms = Except.ok files)
    (hp : ∀ f ∈ files, ∃ m, env.parseRpm f = Except.ok m) :
    (∃ metas, indexRebuild env packagedir = Except.ok metas ∧
      List.Forall₂ (fun f m => env.parseRpm f = Except.ok m) files metas ∧
      ∀ f ∈ files, ∀ m, env.parseRpm f = Except.ok m → m ∈ metas) ∧
    (∀ env2 : SyncEnv, env2.createrepoErr = env.createrepoErr →
      env2.globRpms = env.globRpms → env2.parseRpm = env.parseRpm →
      indexRebuild env2 packagedir = indexRebuild env packagedir) := by
  constructor
  · obtain ⟨metas, hpa, hfa⟩ := parseAll_ok env files hp
    refine ⟨metas, by simp [indexRebuild, hcr, hg, hpa], hfa, ?_⟩
    intro f hf m hm
    obtain ⟨m2, hm2, hr2⟩ := forall2_mem_right hfa f hf
    rw [hm] at hr2
    rw [Except.ok.inj hr2]
    exact hm2
  · intro env2 h1 h2 h3
    simp only [indexRebuild, h1, h2, hcr, hg]
    exact parseAll_congr env env2 h3 files

/-- C6 witness: with two enumerated files that both parse, the rebuild
succeeds and the second file's metadata appears in the index. -/
theorem c6_witness :
    ∃ metas, indexRebuild freshEnv "pkgs" = Except.ok metas ∧
      "meta:pkgs/b.rpm" ∈ metas := by
  have h := c6_index_is_fresh_listing freshEnv "pkgs" rfl
    ["pkgs/a.rpm", "pkgs/b.rpm"] rfl (fun f _ => ⟨"meta:" ++ f, rfl⟩)
  obtain ⟨metas, hok, _, hmem⟩ := h.1
  exact ⟨metas, hok, hmem "pkgs/b.rpm" (by decide) _ rfl⟩

/-- C7: a parse failure for any enumerated on-disk artifact during index
rebuild is fatal to the whole sync: the rebuild reports an error, and a run
that reached the rebuild ends aborted (PanicOn) instead of skipping the
file. -/
theorem c7_parse_failure_fatal (env : SyncEnv) (c : Repo) (packagedir : String)
    (hcr : env.createrepoErr = none) (files : List String)
    (hg : env.globRpms = Except.ok files) (f : String) (hf : f ∈ files)
    (e : String) (hp : env.parseRpm f = Except.error e) :
    (∃ e2, indexRebuild env packagedir = Except.error e2) ∧
    ((if c.gpgCheck then env.openKeyRing c.gpgKey else none) = none →
      env.cacheLocal = none → env.primaryDB = none → mkdirFailed env = false →
      ∀ lfiles, env.readDir = Except.ok lfiles →
      ∀ pkgs, env.packagesResult = Except.ok pkgs →
      ∃ e2, (sync env c packagedir).1 = SyncResult.panicked e2) := by
  obtain ⟨e2, hx⟩ := parseAll_error env files f hf e hp
  have hidx : indexRebuild env packagedir = Except.error e2 := by
    simp [indexRebuild, hcr, hg, hx]
  refine ⟨⟨e2, hidx⟩, ?_⟩
  intro hk hc2 hp2 hm lfiles hr pkgs hpk
  refine ⟨e2, ?_⟩
  rw [sync_panic_run env c packagedir hk hc2 hp2 hm lfiles hr pkgs hpk e2 hidx]

/-- C7 witness: a concrete sync whose only on-disk artifact fails to parse
ends aborted. -/
theorem c7_witness :
    ∃ e2, (sync corruptEnv repoX "pkgs").1 = SyncResult.panicked e2 := by
  exact (c7_parse_failure_fatal corruptEnv repoX "pkgs" rfl ["pkgs/bad.rpm"] rfl
    "pkgs/bad.rpm" (by decide) "corrupt rpm" rfl).2 rfl rfl rfl rfl [] rfl [] rfl

/-- C8: per-job download failures are not fatal: whenever the pre-download
steps and the index rebuild succeed, the sync completes successfully —
whatever errors the download client reports for individual jobs — every
dispatched request has exactly one outcome in the report, and each failed
outcome is logged. -/
theorem c8_job_failures_nonfatal (env : SyncEnv) (c : Repo) (packagedir : String)
    (hk : (if c.gpgCheck then env.openKeyRing c.gpgKey else none) = none)
    (hc2 : env.cacheLocal = none) (hp2 : env.primaryDB = none)
    (hm : mkdirFailed env = false)
    (lfiles : List FileInfo) (hr : env.readDir = Except.ok lfiles)
    (pkgs : List PackageEntry) (hpk : env.packagesResult = Except.ok pkgs)
    (metas : List String) (hx : indexRebuild env packagedir = Except.ok metas) :
    ∃ rep, (sync env c packagedir).1 = SyncResult.success rep ∧
      rep.responses.length = rep.requests.length ∧
      ∀ resp ∈ rep.responses, ∀ e, resp.error = some e →
        LogEvent.downloadError resp.request.label ∈ rep.gpglog := by
  refine ⟨reportOf env c packagedir lfiles pkgs metas, ?_, ?_, ?_⟩
  · rw [sync_success_run env c packagedir hk hc2 hp2 hm lfiles hr pkgs hpk metas hx]
  · simp only [reportOf]
    exact download_length env _
  · simp only [reportOf]
    intro resp hresp e he
    have hstep : LogEvent.downloadError resp.request.label ∈
        (gpgStep env c.gpgCheck resp).2 := by
      simp [gpgStep, he]
    exact gpgPhase_log_mem env c.gpgCheck resp _ hresp _ hstep

/-- C8 witness: a concrete sync whose single download fails with a network
error still completes successfully, with one outcome per request. -/
theorem c8_witness :
    ∃ rep, (sync netFailEnv repoX "pkgs").1 = SyncResult.success rep ∧
      rep.responses.length = rep.requests.length := by
  obtain ⟨rep, hs, hl, _⟩ := c8_job_failures_nonfatal netFailEnv repoX "pkgs"
    rfl rfl rfl rfl [] rfl [pZ] rfl [] rfl
  exact ⟨rep, hs, hl⟩

/-- C9: reconciliation and destination construction use only the base
filename of an entry's location: two entries identical except for the
directory prefix of their location have the same local filename, the same
destination path, the same search result and the same disposition; and any
request built for an entry is aimed at the destination path derived from
that base filename. -/
theorem c9_basename_matching (env : SyncEnv) (packagedir : String)
    (files : List FileInfo) (p q : PackageEntry)
    (hbase : filepathBase p.locationHref = filepathBase q.locationHref)
    (hsize : p.packageSize = q.packageSize) (hsum : p.checksum = q.checksum)
    (htype : p.checksumType = q.checksumType) :
    packageFilename p = packageFilename q ∧
    packagePath packagedir p = packagePath packagedir q ∧
    findValidLocal env packagedir p files = findValidLocal env packagedir q files ∧
    dispositionOf env packagedir p files = dispositionOf env packagedir q files ∧
    (∀ (c : Repo) i total r, (buildOne env c packagedir i total p).1 = some r →
      r.filename = packagePath packagedir p) := by
  have hpf : packageFilename p = packageFilename q := hbase
  have hpp : packagePath packagedir p = packagePath packagedir q := by
    unfold packagePath
    rw [hbase]
  refine ⟨hpf, hpp, ?_, ?_, ?_⟩
  · induction files with
    | nil => rfl
    | cons fi rest ih =>
      simp only [findValidLocal, hpf, hpp, hsize, hsum, htype, ih]
  · induction files with
    | nil => rfl
    | cons fi rest ih =>
      simp only [dispositionOf, hpf, hpp, hsize, hsum, htype, ih]
  · intro c i total r hr
    exact buildOne_filename env c packagedir i total p r hr

/-- C9 witness: two entries with locations "os/x.rpm" and "updates/x.rpm"
share the destination path and the disposition. -/
theorem c9_witness :
    packagePath "pkgs" p9a = packagePath "pkgs" p9b ∧
    dispositionOf baseEnv "pkgs" p9a filesX = dispositionOf baseEnv "pkgs" p9b filesX := by
  have h := c9_basename_matching baseEnv "pkgs" filesX p9a p9b (by decide) rfl rfl rfl
  exact ⟨h.2.1, h.2.2.2.1⟩

/-- C10: when GPG checking is enabled and loading the keyring fails, Sync
returns that error at once: no metadata caching, no package-directory
creation, no download and no deletion has happened — the effect list of the
run is empty, so the local filesystem is untouched. -/
theorem c10_keyring_failure_first (env : SyncEnv) (c : Repo) (packagedir : String)
    (hg : c.gpgCheck = true) (e : String)
    (hk : env.openKeyRing c.gpgKey = some e) :
    sync env c packagedir = (SyncResult.earlyError e, []) := by
  simp only [sync, hg, if_true, hk]

/-- C10 witness: a concrete GPG-enabled repository whose keyring fails to
load aborts immediately with no effects. -/
theorem c10_witness :
    repoGPG.gpgCheck = true ∧
    sync keyFailEnv repoGPG "pkgs" = (SyncResult.earlyError "no such key", []) :=
  ⟨rfl, c10_keyring_failure_first keyFailEnv repoGPG "pkgs" rfl "no such key" rfl⟩

end GoYum
